import Mathlib

/-!
Verification development for the todo-manager-pro repository.

The backend (src/backend/server.js, src/backend/models/Todo.js) and the
frontend state logic (src/frontend/app.js) are shallowly embedded below.

Modelling conventions:
* Mongo ObjectIds are modelled as `Nat`; a request id is `Option Nat`
  (`none` = a string rejected by `mongoose.Types.ObjectId.isValid`).
* `Date` values (`dueDate`, `createdAt`) are modelled as `Int` timestamps;
  a nullable date is `Option Int`.
* A JS string field that may be `undefined` is `Option String`.
* `String.prototype.trim`, `toLowerCase` and `includes` are modelled
  character-wise on `String.data` (`jsTrim`, `jsToLower`, `jsIncludes`).
* `Array.prototype.sort(comparator)` is modelled by `jsSort`, a stable
  comparator-driven insertion sort: each element is inserted after every
  already-placed element it does not strictly precede (comparator < 0).
  For a consistent comparator this is exactly the engine's stable sort.
* The store (MongoDB) is a `Store`: the task list plus an id counter and a
  monotone clock used for `Date.now`-assigned `createdAt` values.
-/

namespace TodoApp

open scoped List

/-- Allowed `status` values, from the `enum` list of `todoSchema` in
src/backend/models/Todo.js. -/
def statusEnum : List String := ["todo", "progress", "completed"]

/-- Allowed `priority` values, from `todoSchema`. -/
def priorityEnum : List String := ["low", "medium", "high"]

/-- Allowed `category` values, from `todoSchema`. -/
def categoryEnum : List String := ["general", "work", "personal", "shopping", "health", "study"]

/-- A stored task document (the fields of `todoSchema` plus the Mongo `_id`). -/
structure Task where
  id : Nat
  title : String
  status : String
  priority : String
  category : String
  dueDate : Option Int
  createdAt : Int
deriving DecidableEq

/-- Character-wise model of `String.prototype.trim`. -/
def jsTrim (s : String) : String :=
  ⟨((s.data.dropWhile Char.isWhitespace).reverse.dropWhile Char.isWhitespace).reverse⟩

/-- Character-wise model of `String.prototype.toLowerCase`. -/
def jsToLower (s : String) : String :=
  ⟨s.data.map Char.toLower⟩

/-- Helper for `jsIncludes`: does `needle` start at the head of `hay`? -/
def startsWithChars : List Char → List Char → Bool
  | [], _ => true
  | _ :: _, [] => false
  | a :: as, b :: bs => a == b && startsWithChars as bs

/-- Helper for `jsIncludes`: does `needle` occur contiguously in `hay`? -/
def containsChars : List Char → List Char → Bool
  | [], needle => needle.isEmpty
  | h :: rest, needle => startsWithChars needle (h :: rest) || containsChars rest needle

/-- Model of `s.includes(sub)` on JS strings. -/
def jsIncludes (s sub : String) : Bool :=
  containsChars s.data sub.data

/-- JS truthiness of an optional string (`!x` is true for `undefined`/`null`/`''`). -/
def jsFalsyStr : Option String → Bool
  | none => true
  | some s => s == ""

/-- Model of `x || d` for an optional string `x` and a non-empty default `d`. -/
def jsOrStr (v : Option String) (d : String) : String :=
  match v with
  | none => d
  | some s => if s = "" then d else s

/-- An HTTP response of the task API: the status code and the task payload
(when the handler returns one). -/
structure Response where
  status : Nat
  task : Option Task
deriving DecidableEq

/-- The persistence layer: stored documents, the id generator, and the
clock that stamps `createdAt` (both strictly increasing across inserts). -/
structure Store where
  todos : List Task
  nextId : Nat
  nextTime : Int
deriving DecidableEq

/-- Request body of `POST /api/todos` (absent fields are `none`). -/
structure CreateBody where
  title : Option String
  status : Option String
  priority : Option String
  category : Option String
  dueDate : Option Int
deriving DecidableEq

/-- Request body of `PUT /api/todos/:id`. For `dueDate` the outer option is
"field present in the body", the inner one is "null vs. a date". -/
structure UpdateBody where
  title : Option String
  status : Option String
  priority : Option String
  category : Option String
  dueDate : Option (Option Int)
deriving DecidableEq

/-- The guard of the POST handler (server.js:46):
`!title || title.trim() === ''`. -/
def titleMissing (b : CreateBody) : Bool :=
  jsFalsyStr b.title || (jsTrim (b.title.getD "") == "")

/-- The document the POST handler builds (server.js:50-56): trimmed title,
`|| default` for the three enum fields, `dueDate || null`. -/
def candidateTodo (s : Store) (b : CreateBody) : Task :=
  { id := s.nextId
    title := jsTrim (b.title.getD "")
    status := jsOrStr b.status "todo"
    priority := jsOrStr b.priority "medium"
    category := jsOrStr b.category "general"
    dueDate := b.dueDate
    createdAt := s.nextTime }

/-- Validation run by mongoose on `todo.save()`: every enum-typed field must
be in its `enum` list and the `required` title must be non-empty. -/
def saveValid (t : Task) : Bool :=
  statusEnum.contains t.status && priorityEnum.contains t.priority &&
    categoryEnum.contains t.category && !(t.title == "")

/-- The `POST /api/todos` handler (server.js:43-65). A mongoose
`ValidationError` thrown by `save()` lands in the catch block, which answers
with status 500 and leaves the store untouched. -/
def postTodos (s : Store) (b : CreateBody) : Response × Store :=
  if titleMissing b then ({ status := 400, task := none }, s)
  else if saveValid (candidateTodo s b) then
    ({ status := 201, task := some (candidateTodo s b) },
     { todos := candidateTodo s b :: s.todos
       nextId := s.nextId + 1
       nextTime := s.nextTime + 1 })
  else ({ status := 500, task := none }, s)

/-- The update validators that `findByIdAndUpdate(..., { runValidators: true })`
runs on the paths present in the update object (enum membership, and the
`required` check for a title that is being set). -/
def updateValidators (b : UpdateBody) : Bool :=
  (match b.title with | none => true | some v => !(jsTrim v == "")) &&
  (match b.status with | none => true | some v => statusEnum.contains v) &&
  (match b.priority with | none => true | some v => priorityEnum.contains v) &&
  (match b.category with | none => true | some v => categoryEnum.contains v)

/-- Application of the `updates` object the PUT handler builds
(server.js:76-81): only the fields present in the body are assigned, the
title among them trimmed; `_id` and `createdAt` are never part of it. -/
def applyUpdates (t : Task) (b : UpdateBody) : Task :=
  { t with
    title := match b.title with | none => t.title | some v => jsTrim v
    status := match b.status with | none => t.status | some v => v
    priority := match b.priority with | none => t.priority | some v => v
    category := match b.category with | none => t.category | some v => v
    dueDate := match b.dueDate with | none => t.dueDate | some d => d }

/-- The `PUT /api/todos/:id` handler (server.js:68-98). `rawId = none` is a
malformed id (400). The update validators reject before the document lookup,
and the rejection is caught by the generic catch block (500). Otherwise the
matched document is updated in place, or 404 when the id is unknown. -/
def putTodoId (s : Store) (rawId : Option Nat) (b : UpdateBody) : Response × Store :=
  match rawId with
  | none => ({ status := 400, task := none }, s)
  | some id =>
    if updateValidators b then
      match s.todos.find? (fun u => u.id == id) with
      | none => ({ status := 404, task := none }, s)
      | some t =>
        ({ status := 200, task := some (applyUpdates t b) },
         { s with todos := s.todos.map (fun u => if u.id == id then applyUpdates u b else u) })
    else ({ status := 500, task := none }, s)

/-- Empty `PUT` body: `{}`. -/
def emptyUpdate : UpdateBody :=
  { title := none, status := none, priority := none, category := none, dueDate := none }

/-- Severity of a client notification (`showToast`'s second argument). -/
inductive Severity where
  | success
  | error
deriving DecidableEq

/-- A notification surfaced to the presentation collaborator. -/
structure Toast where
  message : String
  severity : Severity
deriving DecidableEq

/-- The client state slice the cache logic touches (app.js `state`). -/
structure ClientState where
  todos : List Task
  deletedTodo : Option Task
deriving DecidableEq

/-- `createTodo` (app.js:189-203): on API success the new task is unshifted
onto the cache; on failure the cache is untouched and an error toast shown. -/
def createTodoClient (cs : ClientState) (resp : Except Unit Task) : ClientState × List Toast :=
  match resp with
  | .error _ => (cs, [{ message := "Failed to add task", severity := .error }])
  | .ok t =>
    ({ cs with todos := t :: cs.todos },
     [{ message := "Task added successfully! 🎯", severity := .success }])

/-- `updateTodo` (app.js:205-224): on success the cached task with the given
id is replaced in place (no-op if absent locally); on failure nothing changes
and an error toast is shown. -/
def updateTodoClient (cs : ClientState) (id : Nat) (resp : Except Unit Task) :
    ClientState × List Toast :=
  match resp with
  | .error _ => (cs, [{ message := "Failed to update task", severity := .error }])
  | .ok u =>
    match cs.todos.findIdx? (fun t => t.id == id) with
    | none => (cs, [])
    | some i => ({ cs with todos := cs.todos.set i u }, [])

/-- `deleteTodo` (app.js:226-242): on success the cached task is snapshotted
into the single undo slot and spliced out; on failure nothing changes and an
error toast is shown. -/
def deleteTodoClient (cs : ClientState) (id : Nat) (resp : Except Unit Unit) :
    ClientState × List Toast :=
  match resp with
  | .error _ => (cs, [{ message := "Failed to delete task", severity := .error }])
  | .ok _ =>
    match cs.todos.findIdx? (fun t => t.id == id) with
    | none => (cs, [])
    | some i =>
      ({ todos := cs.todos.eraseIdx i, deletedTodo := cs.todos[i]? },
       [{ message := "Task deleted", severity := .success }])

/-- `clearAllTodos` (app.js:244-256): on success the cache is emptied; on
failure nothing changes and an error toast is shown. -/
def clearAllClient (cs : ClientState) (resp : Except Unit Nat) : ClientState × List Toast :=
  match resp with
  | .error _ => (cs, [{ message := "Failed to clear tasks", severity := .error }])
  | .ok _ =>
    ({ cs with todos := [] }, [{ message := "All tasks cleared! 🗑️", severity := .success }])

/-- The body `handleUndo` (app.js:357-363) sends to `createTodo` for the
snapshotted task. -/
def undoBody (d : Task) : CreateBody :=
  { title := some d.title
    status := some d.status
    priority := some d.priority
    category := some d.category
    dueDate := d.dueDate }

/-- `handleUndo` (app.js:354-373) composed with the server's POST handler:
an empty undo slot returns immediately; otherwise the snapshot is re-created
through `POST /api/todos`, and only after a successful creation is the new
task unshifted and the slot cleared (a failed creation leaves both the cache
and the slot as they were). -/
def handleUndoApply (cs : ClientState) (s : Store) : ClientState × Store :=
  match cs.deletedTodo with
  | none => (cs, s)
  | some d =>
    let res := postTodos s (undoBody d)
    if res.1.status = 201 then
      match res.1.task with
      | some t => ({ todos := t :: cs.todos, deletedTodo := none }, res.2)
      | none => (cs, res.2)
    else (cs, res.2)

/-- A successful client-side delete (the `.ok` path of `deleteTodoClient`)
followed by `handleUndo` against the store as it stands at undo time. -/
def deleteThenUndo (cs : ClientState) (s : Store) (id : Nat) : ClientState × Store :=
  handleUndoApply (deleteTodoClient cs id (Except.ok ())).1 s

/-- One step of the `Array.prototype.sort` model: place `x` after every
already-sorted element it does not strictly precede. -/
def insertJs (c : Task → Task → Int) (x : Task) : List Task → List Task
  | [] => [x]
  | y :: ys => if c x y < 0 then x :: y :: ys else y :: insertJs c x ys

/-- Model of `Array.prototype.sort(c)`: a stable comparator-driven insertion
sort (see the file header). -/
def jsSort (c : Task → Task → Int) (l : List Task) : List Task :=
  l.foldl (fun acc x => insertJs c x acc) []

/-- The lookup table of the `priority` sort branch (app.js:587). A priority
outside the table yields `undefined` (hence `NaN` comparisons) in JS; the
model returns 0 there, which no claim exercises. -/
def priorityOrder (p : String) : Int :=
  if p = "high" then 3 else if p = "medium" then 2 else if p = "low" then 1 else 0

/-- The comparator of `getFilteredTodos` (app.js:581-599), switching on the
current sort key string; the `default` branch compares everything equal. -/
def cmpTodos (sort : String) (a b : Task) : Int :=
  if sort = "newest" then b.createdAt - a.createdAt
  else if sort = "oldest" then a.createdAt - b.createdAt
  else if sort = "priority" then priorityOrder b.priority - priorityOrder a.priority
  else if sort = "dueDate" then
    match a.dueDate, b.dueDate with
    | none, _ => 1
    | some _, none => -1
    | some da, some db => da - db
  else 0

/-- The two filter passes of `getFilteredTodos` (app.js:564-578): the status
filter unless the current filter is `all`, then the case-insensitive
title-or-category substring filter unless the search query is empty. -/
def filterPhase (todos : List Task) (currentFilter searchQuery : String) : List Task :=
  let afterStatus :=
    if currentFilter ≠ "all" then todos.filter (fun t => t.status == currentFilter) else todos
  if searchQuery ≠ "" then
    afterStatus.filter (fun t =>
      jsIncludes (jsToLower t.title) searchQuery || jsIncludes (jsToLower t.category) searchQuery)
  else afterStatus

/-- `getFilteredTodos` (app.js:564-600): filter passes followed by the sort. -/
def getFilteredTodos (todos : List Task) (currentFilter searchQuery currentSort : String) :
    List Task :=
  jsSort (cmpTodos currentSort) (filterPhase todos currentFilter searchQuery)

/-- The pure projection `view(cache, filterStatus, searchText, sortKey)`:
`handleSearch` (app.js:555-558) lowercases the entered text before it is
stored as `state.searchQuery`, then `getFilteredTodos` runs. -/
def view (cache : List Task) (filterStatus searchText sortKey : String) : List Task :=
  getFilteredTodos cache filterStatus (jsToLower searchText) sortKey

/-- Ordering the `dueDate` sort is claimed to establish between two tasks at
earlier/later positions of the output. -/
def duePairOrder (a b : Task) : Prop :=
  (a.dueDate = none → b.dueDate = none) ∧
  (∀ da db, a.dueDate = some da → b.dueDate = some db → da ≤ db)

/-! Concrete sample data used to instantiate the theorems below. -/

/-- A stored task in canonical shape (trimmed non-empty title, enum fields
from the allowed sets). -/
def sampleTask : Task :=
  { id := 1, title := "Buy milk", status := "todo", priority := "medium",
    category := "general", dueDate := none, createdAt := 0 }

/-- A second stored task with distinct id, `createdAt` and `dueDate`. -/
def sampleTask2 : Task :=
  { id := 2, title := "Write report", status := "progress", priority := "high",
    category := "work", dueDate := some 100, createdAt := 5 }

/-- A store holding `sampleTask`, with fresh id/clock counters ahead of it. -/
def sampleStore : Store := { todos := [sampleTask], nextId := 2, nextTime := 10 }

/-- An empty store. -/
def emptyStore : Store := { todos := [], nextId := 1, nextTime := 0 }

/-- A two-task client cache with distinct `createdAt` values. -/
def sampleCache : List Task := [sampleTask, sampleTask2]

/-- A client whose cache holds `sampleTask` and whose undo slot is empty. -/
def sampleClient : ClientState := { todos := [sampleTask], deletedTodo := none }

/-- A client whose undo slot holds `sampleTask`. -/
def sampleClientDeleted : ClientState := { todos := [], deletedTodo := some sampleTask }

/-- An update body that only supplies a title. -/
def sampleUpdate : UpdateBody :=
  { title := some "Buy milk now", status := none, priority := none,
    category := none, dueDate := none }

/-- An update body whose `status` lies outside the enum set. -/
def bananaUpdate : UpdateBody :=
  { title := none, status := some "banana", priority := none,
    category := none, dueDate := none }

/-- A creation body whose `status` lies outside the enum set. -/
def bananaBody : CreateBody :=
  { title := some "Buy milk", status := some "banana", priority := none,
    category := none, dueDate := none }

/-- A creation body that supplies `status` as the empty string. -/
def emptyStatusBody : CreateBody :=
  { title := some "Buy milk", status := some "", priority := none,
    category := none, dueDate := none }

/-! Generic facts about the `Array.prototype.sort` model. -/

/-- Inserting one element produces a permutation of consing it. -/
theorem insertJs_perm (c : Task → Task → Int) (x : Task) (l : List Task) :
    insertJs c x l ~ x :: l := by
  induction l with
  | nil => simp [insertJs]
  | cons y ys ih =>
    simp only [insertJs]
    split
    · exact List.Perm.refl _
    · exact (ih.cons y).trans (List.Perm.swap x y ys)

/-- Folding the insertions over `l` starting from `acc` permutes `acc ++ l`. -/
theorem foldl_insertJs_perm (c : Task → Task → Int) :
    ∀ (l acc : List Task), l.foldl (fun a x => insertJs c x a) acc ~ acc ++ l := by
  intro l
  induction l with
  | nil => intro acc; simp
  | cons x l ih =>
    intro acc
    calc (x :: l).foldl (fun a x => insertJs c x a) acc
        = l.foldl (fun a x => insertJs c x a) (insertJs c x acc) := rfl
      _ ~ insertJs c x acc ++ l := ih _
      _ ~ (x :: acc) ++ l := (insertJs_perm c x acc).append_right l
      _ ~ acc ++ x :: l := by
          rw [List.cons_append]
          exact List.perm_middle.symm

/-- The sort model returns a permutation of its input. -/
theorem jsSort_perm (c : Task → Task → Int) (l : List Task) : jsSort c l ~ l := by
  have h := foldl_insertJs_perm c l []
  simpa [jsSort] using h

/-- Inserting preserves `Pairwise P` for any `P` compatible with the
comparator in the three ways below. -/
theorem insertJs_pairwise {c : Task → Task → Int} {P : Task → Task → Prop}
    (H1 : ∀ a b, c a b < 0 → P a b)
    (H2 : ∀ a b, ¬ c a b < 0 → P b a)
    (H3 : ∀ a b d, c a b < 0 → P b d → P a d)
    (x : Task) : ∀ {l : List Task}, l.Pairwise P → (insertJs c x l).Pairwise P := by
  intro l hl
  induction l with
  | nil => simp [insertJs]
  | cons y ys ih =>
    rw [List.pairwise_cons] at hl
    obtain ⟨hy, hys⟩ := hl
    by_cases hc : c x y < 0
    · simp only [insertJs, if_pos hc]
      refine List.Pairwise.cons ?_ (List.Pairwise.cons hy hys)
      intro z hz
      rcases List.mem_cons.mp hz with rfl | hz'
      · exact H1 x z hc
      · exact H3 x y z hc (hy z hz')
    · simp only [insertJs, if_neg hc]
      refine List.Pairwise.cons ?_ (ih hys)
      intro z hz
      rcases List.mem_cons.mp ((insertJs_perm c x ys).mem_iff.mp hz) with rfl | hz'
      · exact H2 _ y hc
      · exact hy z hz'

/-- The sort model's output is `Pairwise P` for any compatible `P`. -/
theorem jsSort_pairwise {c : Task → Task → Int} {P : Task → Task → Prop}
    (H1 : ∀ a b, c a b < 0 → P a b)
    (H2 : ∀ a b, ¬ c a b < 0 → P b a)
    (H3 : ∀ a b d, c a b < 0 → P b d → P a d)
    (l : List Task) : (jsSort c l).Pairwise P := by
  suffices h : ∀ (l acc : List Task), acc.Pairwise P →
      (l.foldl (fun a x => insertJs c x a) acc).Pairwise P by
    exact h l [] List.Pairwise.nil
  intro l
  induction l with
  | nil => intro acc h; simpa using h
  | cons x l ih => intro acc h; exact ih _ (insertJs_pairwise H1 H2 H3 x h)

/-- An element the comparator never sends forward is appended at the end. -/
theorem insertJs_append_last {c : Task → Task → Int} {x : Task}
    (hx : ∀ y, ¬ c x y < 0) : ∀ l, insertJs c x l = l ++ [x] := by
  intro l
  induction l with
  | nil => rfl
  | cons y ys ih => simp [insertJs, if_neg (hx y), ih]

/-- Inserting an element that fails `p` does not disturb the `p`-filter. -/
theorem insertJs_filter_neg {c : Task → Task → Int} {x : Task} {p : Task → Bool}
    (hpx : p x = false) : ∀ l, (insertJs c x l).filter p = l.filter p := by
  intro l
  induction l with
  | nil => simp [insertJs, hpx]
  | cons y ys ih =>
    by_cases hc : c x y < 0
    · simp [insertJs, if_pos hc, List.filter_cons, hpx]
    · simp only [insertJs, if_neg hc, List.filter_cons, ih]

/-- When every element satisfying `p` compares after everything, the sort
keeps the `p`-elements exactly in their received order. -/
theorem jsSort_filter {c : Task → Task → Int} {p : Task → Bool}
    (Hp : ∀ x, p x = true → ∀ y, ¬ c x y < 0)
    (l : List Task) : (jsSort c l).filter p = l.filter p := by
  suffices h : ∀ (l acc : List Task),
      (l.foldl (fun a x => insertJs c x a) acc).filter p = acc.filter p ++ l.filter p by
    simpa [jsSort] using h l []
  intro l
  induction l with
  | nil => intro acc; simp
  | cons x l ih =>
    intro acc
    rw [List.foldl_cons, ih]
    by_cases hpx : p x = true
    · rw [insertJs_append_last (Hp x hpx), List.filter_append]
      simp [List.filter_cons, hpx]
    · have hpx' : p x = false := by simpa using hpx
      rw [insertJs_filter_neg hpx']
      simp [List.filter_cons, hpx']

/-! Unfoldings of the comparator at the concrete sort keys. -/

theorem cmpTodos_newest (a b : Task) : cmpTodos "newest" a b = b.createdAt - a.createdAt := rfl

theorem cmpTodos_dueDate (a b : Task) :
    cmpTodos "dueDate" a b =
      (match a.dueDate, b.dueDate with
       | none, _ => 1
       | some _, none => -1
       | some da, some db => da - db) := rfl

/-- With the `all` filter and an empty search text the filter passes are the
identity. -/
theorem filterPhase_all_empty (l : List Task) : filterPhase l "all" (jsToLower "") = l := rfl

/-- `toLowerCase` maps exactly the empty string to the empty string. -/
theorem jsToLower_eq_empty_iff (s : String) : jsToLower s = "" ↔ s = "" := by
  obtain ⟨data⟩ := s
  constructor
  · intro h
    have hd : data.map Char.toLower = [] := congrArg String.data h
    have hnil : data = [] := List.map_eq_nil_iff.mp hd
    subst hnil
    rfl
  · intro h
    have hd : data = [] := congrArg String.data h
    subst hd
    rfl

/-! Helper lemmas shared by the claim theorems. -/

/-- A falsy (`undefined`/`''`) optional string falls back to the default
under `||`. -/
theorem jsOrStr_falsy {v : Option String} {d : String} (h : jsFalsyStr v = true) :
    jsOrStr v d = d := by
  cases v with
  | none => rfl
  | some s =>
    simp only [jsFalsyStr, beq_iff_eq] at h
    simp [jsOrStr, h]

/-- A POST response carrying a task is the 201 branch: the task is the
candidate document, which passed validation, and the title guard passed. -/
theorem postTodos_task_eq {s : Store} {b : CreateBody} {t : Task}
    (ht : (postTodos s b).1.task = some t) :
    t = candidateTodo s b ∧ saveValid (candidateTodo s b) = true ∧ titleMissing b = false := by
  by_cases htm : titleMissing b = true
  · simp [postTodos, htm] at ht
  · replace htm : titleMissing b = false := by simpa using htm
    by_cases hsv : saveValid (candidateTodo s b) = true
    · simp only [postTodos, htm, hsv, Bool.false_eq_true, if_false, if_true] at ht
      exact ⟨(Option.some.injEq _ _ ▸ ht).symm, hsv, htm⟩
    · replace hsv : saveValid (candidateTodo s b) = false := by simpa using hsv
      simp [postTodos, htm, hsv] at ht

/-- Two pairwise properties combine pointwise. -/
theorem pairwise_conj {α : Type} {R S : α → α → Prop} :
    ∀ {l : List α}, l.Pairwise R → l.Pairwise S → l.Pairwise (fun a b => R a b ∧ S a b) := by
  intro l hR hS
  induction l with
  | nil => exact List.Pairwise.nil
  | cons x xs ih =>
    rw [List.pairwise_cons] at hR hS ⊢
    exact ⟨fun z hz => ⟨hR.1 z hz, hS.1 z hz⟩, ih hR.2 hS.2⟩

/-! The claim theorems. -/

/-- Claim C9: for every client mutation (create, update, delete, clear-all),
a failed API request leaves the client cache exactly as it was and surfaces
an error notification to the presentation collaborator. -/
theorem failed_mutations_preserve_cache (cs : ClientState) (id : Nat) :
    createTodoClient cs (.error ()) =
      (cs, [{ message := "Failed to add task", severity := .error }]) ∧
    updateTodoClient cs id (.error ()) =
      (cs, [{ message := "Failed to update task", severity := .error }]) ∧
    deleteTodoClient cs id (.error ()) =
      (cs, [{ message := "Failed to delete task", severity := .error }]) ∧
    clearAllClient cs (.error ()) =
      (cs, [{ message := "Failed to clear tasks", severity := .error }]) :=
  ⟨rfl, rfl, rfl, rfl⟩

/-- Claim C8: a create request whose title is missing, empty, or whitespace
only is answered 400 with no task payload and the store unchanged. -/
theorem post_blank_title_rejected (s : Store) (b : CreateBody)
    (h : b.title = none ∨ ∃ v, b.title = some v ∧ jsTrim v = "") :
    postTodos s b = ({ status := 400, task := none }, s) := by
  have hm : titleMissing b = true := by
    rcases h with h | ⟨v, hv, htv⟩
    · simp [titleMissing, jsFalsyStr, h]
    · simp [titleMissing, jsFalsyStr, hv, htv]
  simp [postTodos, hm]

/-- Witness for C8 at the whitespace-only title of the spec's example. -/
theorem post_blank_title_rejected_witness :
    postTodos emptyStore
        { title := some "   ", status := none, priority := none,
          category := none, dueDate := none } =
      ({ status := 400, task := none }, emptyStore) :=
  post_blank_title_rejected emptyStore _ (Or.inr ⟨"   ", rfl, by decide⟩)

/-- Claim C4: a partial update changes only the supplied fields; `id` and
`createdAt` always keep their values, every absent field keeps its value,
and the empty update body leaves the task unchanged. -/
theorem update_frame (t : Task) (b : UpdateBody) :
    (applyUpdates t b).id = t.id ∧
    (applyUpdates t b).createdAt = t.createdAt ∧
    (b.title = none → (applyUpdates t b).title = t.title) ∧
    (b.status = none → (applyUpdates t b).status = t.status) ∧
    (b.priority = none → (applyUpdates t b).priority = t.priority) ∧
    (b.category = none → (applyUpdates t b).category = t.category) ∧
    (b.dueDate = none → (applyUpdates t b).dueDate = t.dueDate) ∧
    applyUpdates t emptyUpdate = t := by
  refine ⟨rfl, rfl, ?_, ?_, ?_, ?_, ?_, rfl⟩ <;>
    (intro h; simp [applyUpdates, h])

/-- Witness for C4: a title-only update keeps the status, and the empty
update keeps the whole task. -/
theorem update_frame_witness :
    (applyUpdates sampleTask sampleUpdate).status = sampleTask.status ∧
    applyUpdates sampleTask emptyUpdate = sampleTask :=
  ⟨(update_frame sampleTask sampleUpdate).2.2.2.1 rfl,
   (update_frame sampleTask sampleUpdate).2.2.2.2.2.2.2⟩

/-- Counterexample to C2 as stated: a well-formed id together with a body
whose `status` is outside the enum set is answered with status 500 — not
with a 400-class response. -/
theorem put_invalid_enum_counterexample :
    (putTodoId sampleStore (some 1) bananaUpdate).1.status = 500 ∧
    ¬ (400 ≤ (putTodoId sampleStore (some 1) bananaUpdate).1.status ∧
       (putTodoId sampleStore (some 1) bananaUpdate).1.status < 500) := by
  decide

/-- Claim C2 (amended): an update body holding an enum field outside its set
makes the mongoose validators reject; the handler's catch-all surfaces this
as a 500 response with no task payload and the store unchanged. -/
theorem put_invalid_enum_500 (s : Store) (id : Nat) (b : UpdateBody)
    (h : (∃ v, b.status = some v ∧ statusEnum.contains v = false) ∨
         (∃ v, b.priority = some v ∧ priorityEnum.contains v = false) ∨
         (∃ v, b.category = some v ∧ categoryEnum.contains v = false)) :
    putTodoId s (some id) b = ({ status := 500, task := none }, s) := by
  have hv : updateValidators b = false := by
    rcases h with ⟨v, hb, hc⟩ | ⟨v, hb, hc⟩ | ⟨v, hb, hc⟩ <;> simp at hc <;>
      simp [updateValidators, hb, hc]
  simp [putTodoId, hv]

/-- Witness for the amended C2 at a concrete store and body. -/
theorem put_invalid_enum_500_witness :
    putTodoId sampleStore (some 1) bananaUpdate = ({ status := 500, task := none }, sampleStore) :=
  put_invalid_enum_500 sampleStore 1 bananaUpdate (Or.inl ⟨"banana", rfl, by decide⟩)

/-- Counterexample to C3 as stated: supplying `status` as the empty string —
a present but invalid value — is silently coerced to the default `'todo'` and
the task is stored (201), contradicting "never silently coerced". -/
theorem post_empty_string_coerced_counterexample :
    (postTodos emptyStore emptyStatusBody).1.status = 201 ∧
    (postTodos emptyStore emptyStatusBody).1.task.map Task.status = some "todo" ∧
    (postTodos emptyStore emptyStatusBody).2.todos.length = 1 := by
  decide

/-- Claim C3 (amended): on create, a supplied non-empty value outside an
enum set is rejected (500, nothing stored); a supplied falsy value (the
empty string), exactly like an omitted field, is replaced by the stated
default before the document is stored. -/
theorem post_enum_handling (s : Store) (b : CreateBody) :
    (titleMissing b = false →
      ((∃ v, b.status = some v ∧ v ≠ "" ∧ statusEnum.contains v = false) ∨
       (∃ v, b.priority = some v ∧ v ≠ "" ∧ priorityEnum.contains v = false) ∨
       (∃ v, b.category = some v ∧ v ≠ "" ∧ categoryEnum.contains v = false)) →
      postTodos s b = ({ status := 500, task := none }, s)) ∧
    (jsFalsyStr b.status = true →
      ∀ t, (postTodos s b).1.task = some t → t.status = "todo") ∧
    (jsFalsyStr b.priority = true →
      ∀ t, (postTodos s b).1.task = some t → t.priority = "medium") ∧
    (jsFalsyStr b.category = true →
      ∀ t, (postTodos s b).1.task = some t → t.category = "general") := by
  refine ⟨?_, ?_, ?_, ?_⟩
  · intro htm h
    have hsv : saveValid (candidateTodo s b) = false := by
      rcases h with ⟨v, hb, hne, hc⟩ | ⟨v, hb, hne, hc⟩ | ⟨v, hb, hne, hc⟩ <;>
        simp at hc <;>
        simp [saveValid, candidateTodo, jsOrStr, hb, hne, hc]
    simp [postTodos, htm, hsv]
  · intro hf t ht
    obtain ⟨rfl, -, -⟩ := postTodos_task_eq ht
    simp [candidateTodo, jsOrStr_falsy hf]
  · intro hf t ht
    obtain ⟨rfl, -, -⟩ := postTodos_task_eq ht
    simp [candidateTodo, jsOrStr_falsy hf]
  · intro hf t ht
    obtain ⟨rfl, -, -⟩ := postTodos_task_eq ht
    simp [candidateTodo, jsOrStr_falsy hf]

/-- Witness for the amended C3: a non-empty invalid status is rejected with
500 and nothing stored; an empty-string status yields the default. -/
theorem post_enum_handling_witness :
    postTodos emptyStore bananaBody = ({ status := 500, task := none }, emptyStore) ∧
    (candidateTodo emptyStore emptyStatusBody).status = "todo" :=
  ⟨(post_enum_handling emptyStore bananaBody).1 (by decide)
      (Or.inl ⟨"banana", rfl, by decide, by decide⟩),
   (post_enum_handling emptyStore emptyStatusBody).2.1 (by decide)
      (candidateTodo emptyStore emptyStatusBody) (by decide)⟩

/-- Membership in the filter passes, spelled out. -/
theorem mem_filterPhase (l : List Task) (fs qq : String) (t : Task) :
    t ∈ filterPhase l fs qq ↔
      t ∈ l ∧ (fs = "all" ∨ t.status = fs) ∧
        (qq ≠ "" →
          (jsIncludes (jsToLower t.title) qq || jsIncludes (jsToLower t.category) qq) = true) := by
  unfold filterPhase
  by_cases hfs : fs = "all" <;> by_cases hq : qq = "" <;>
    (simp [hfs, hq, List.mem_filter, and_assoc]; try tauto)

/-- Claim C5: the view contains exactly the cached tasks that pass the
status filter (everything when the filter is `all`) and, when the search
text is non-empty, match it case-insensitively as a substring of their title
or category. -/
theorem view_membership (cache : List Task) (fs q sk : String) (t : Task) :
    t ∈ view cache fs q sk ↔
      t ∈ cache ∧ (fs = "all" ∨ t.status = fs) ∧
        (q ≠ "" →
          (jsIncludes (jsToLower t.title) (jsToLower q) ||
           jsIncludes (jsToLower t.category) (jsToLower q)) = true) := by
  unfold view getFilteredTodos
  rw [(jsSort_perm _ _).mem_iff, mem_filterPhase]
  simp [ne_eq, jsToLower_eq_empty_iff]

/-- Claim C1: under the `dueDate` sort key, for every cache and filter
settings, every no-date task ends up after every dated task, dated tasks
appear in ascending date order, and the no-date tasks keep exactly the order
in which the sort received them. -/
theorem view_dueDate_nulls_last (cache : List Task) (fs q : String) :
    (view cache fs q "dueDate").Pairwise duePairOrder ∧
    (view cache fs q "dueDate").filter (fun t => t.dueDate.isNone) =
      (filterPhase cache fs (jsToLower q)).filter (fun t => t.dueDate.isNone) := by
  constructor
  · unfold view getFilteredTodos
    refine jsSort_pairwise ?_ ?_ ?_ _
    · intro a b h
      rcases ha : a.dueDate with _ | da <;> rcases hb : b.dueDate with _ | db <;>
        simp only [cmpTodos_dueDate, ha, hb] at h <;>
        simp [duePairOrder, ha, hb] <;> omega
    · intro a b h
      rcases ha : a.dueDate with _ | da <;> rcases hb : b.dueDate with _ | db <;>
        simp only [cmpTodos_dueDate, ha, hb] at h <;>
        simp [duePairOrder, ha, hb] <;> omega
    · intro a b d h hbd
      rcases ha : a.dueDate with _ | da
      · rw [cmpTodos_dueDate] at h
        simp only [ha] at h
        exact absurd h (by decide)
      · rcases hb : b.dueDate with _ | db
        · have hd : d.dueDate = none := hbd.1 hb
          exact ⟨fun _ => hd,
                 fun da' dd' h1 h2 => by rw [hd] at h2; exact Option.noConfusion h2⟩
        · simp only [cmpTodos_dueDate, ha, hb] at h
          refine ⟨fun hn => by rw [ha] at hn; exact Option.noConfusion hn, ?_⟩
          intro da' dd' h1 h2
          rw [ha] at h1
          obtain rfl := Option.some.inj h1
          have hbound := hbd.2 db dd' hb h2
          omega
  · unfold view getFilteredTodos
    refine jsSort_filter ?_ _
    intro x hx y
    have hxn : x.dueDate = none := by simpa using hx
    rw [cmpTodos_dueDate]
    simp only [hxn]
    decide

/-- Under the `newest` key with distinct timestamps the sort output is
strictly descending in `createdAt`. -/
theorem jsSort_newest_strict (l : List Task)
    (hl : (l.map Task.createdAt).Nodup) :
    (jsSort (cmpTodos "newest") l).Pairwise (fun a b => b.createdAt < a.createdAt) := by
  have hle : (jsSort (cmpTodos "newest") l).Pairwise
      (fun a b => b.createdAt ≤ a.createdAt) := by
    refine jsSort_pairwise ?_ ?_ ?_ l
    · intro a b h; rw [cmpTodos_newest] at h; omega
    · intro a b h; rw [cmpTodos_newest] at h; omega
    · intro a b d h hbd; rw [cmpTodos_newest] at h; omega
  have hmap : ((jsSort (cmpTodos "newest") l).map Task.createdAt).Nodup :=
    (((jsSort_perm (cmpTodos "newest") l).map Task.createdAt).nodup_iff).mpr hl
  have hne : (jsSort (cmpTodos "newest") l).Pairwise
      (fun a b => a.createdAt ≠ b.createdAt) := List.pairwise_map.mp hmap
  exact (pairwise_conj hle hne).imp fun h => lt_of_le_of_ne h.1 (Ne.symm h.2)

/-- Claim C6: with the `all` filter, empty search and the `newest` sort key,
the view on a cache of pairwise-distinct timestamps is exactly the cache
ordered by `createdAt` descending, and reversing the cache does not change
the output list. -/
theorem view_newest_canonical (cache : List Task)
    (hnd : (cache.map Task.createdAt).Nodup) :
    view cache "all" "" "newest" ~ cache ∧
    (view cache "all" "" "newest").Pairwise (fun a b => b.createdAt < a.createdAt) ∧
    view cache.reverse "all" "" "newest" = view cache "all" "" "newest" := by
  have hv : ∀ l : List Task, view l "all" "" "newest" = jsSort (cmpTodos "newest") l :=
    fun _ => rfl
  have hnd' : (cache.reverse.map Task.createdAt).Nodup := by
    rw [List.map_reverse, List.nodup_reverse]
    exact hnd
  refine ⟨?_, ?_, ?_⟩
  · rw [hv]
    exact jsSort_perm _ _
  · rw [hv]
    exact jsSort_newest_strict cache hnd
  · rw [hv, hv]
    have hp : jsSort (cmpTodos "newest") cache.reverse ~ jsSort (cmpTodos "newest") cache :=
      ((jsSort_perm _ _).trans (List.reverse_perm cache)).trans (jsSort_perm _ cache).symm
    haveI : IsAntisymm Task (fun a b => b.createdAt < a.createdAt) :=
      ⟨fun a b h1 h2 => absurd h1 (by omega)⟩
    exact List.eq_of_perm_of_sorted hp
      (jsSort_newest_strict cache.reverse hnd') (jsSort_newest_strict cache hnd)

/-- Witness for C6 on a concrete two-task cache. -/
theorem view_newest_canonical_witness :
    (sampleCache.map Task.createdAt).Nodup ∧
    (view sampleCache "all" "" "newest" ~ sampleCache ∧
     (view sampleCache "all" "" "newest").Pairwise (fun a b => b.createdAt < a.createdAt) ∧
     view sampleCache.reverse "all" "" "newest" = view sampleCache "all" "" "newest") :=
  ⟨by decide, view_newest_canonical sampleCache (by decide)⟩

/-- Claim C7: deleting a cached task and undoing before the window elapses
re-creates, at the head of the cache, a task agreeing with the deleted one
on title, status, priority, category and dueDate, under a fresh id. The
hypotheses are the store invariants every cached task enjoys: enum fields
inside their sets, a trimmed non-empty title, and an id older than the
store's id counter. -/
theorem delete_then_undo_restores (cs : ClientState) (s : Store) (t : Task) (i : Nat)
    (hfind : cs.todos.findIdx? (fun u => u.id == t.id) = some i)
    (hget : cs.todos[i]? = some t)
    (hst : statusEnum.contains t.status = true)
    (hpr : priorityEnum.contains t.priority = true)
    (hca : categoryEnum.contains t.category = true)
    (htr : jsTrim t.title = t.title)
    (hne : t.title ≠ "")
    (hid : s.nextId ≠ t.id) :
    ∃ t', (deleteThenUndo cs s t.id).1.todos.head? = some t' ∧
      t'.title = t.title ∧ t'.status = t.status ∧ t'.priority = t.priority ∧
      t'.category = t.category ∧ t'.dueDate = t.dueDate ∧ t'.id ≠ t.id := by
  have hsne : t.status ≠ "" := by
    intro h
    rw [h] at hst
    exact absurd hst (by decide)
  have hpne : t.priority ≠ "" := by
    intro h
    rw [h] at hpr
    exact absurd hpr (by decide)
  have hcne : t.category ≠ "" := by
    intro h
    rw [h] at hca
    exact absurd hca (by decide)
  have hdel : (deleteTodoClient cs t.id (Except.ok ())).1 =
      { todos := cs.todos.eraseIdx i, deletedTodo := some t } := by
    simp [deleteTodoClient, hfind, hget]
  have htm : titleMissing (undoBody t) = false := by
    simp [titleMissing, undoBody, jsFalsyStr, htr, hne]
  have hcand : candidateTodo s (undoBody t) =
      { id := s.nextId, title := t.title, status := t.status, priority := t.priority,
        category := t.category, dueDate := t.dueDate, createdAt := s.nextTime } := by
    simp [candidateTodo, undoBody, jsOrStr, htr, hsne, hpne, hcne]
  have hst' : t.status ∈ statusEnum := by simpa using hst
  have hpr' : t.priority ∈ priorityEnum := by simpa using hpr
  have hca' : t.category ∈ categoryEnum := by simpa using hca
  have hsv : saveValid (candidateTodo s (undoBody t)) = true := by
    rw [hcand]
    simp [saveValid, hst', hpr', hca', hne]
  have hpost : postTodos s (undoBody t) =
      ({ status := 201, task := some (candidateTodo s (undoBody t)) },
       { todos := candidateTodo s (undoBody t) :: s.todos, nextId := s.nextId + 1,
         nextTime := s.nextTime + 1 }) := by
    simp [postTodos, htm, hsv]
  have hhead : (deleteThenUndo cs s t.id).1.todos.head? =
      some (candidateTodo s (undoBody t)) := by
    unfold deleteThenUndo
    rw [hdel]
    simp [handleUndoApply, hpost]
  refine ⟨candidateTodo s (undoBody t), hhead, ?_, ?_, ?_, ?_, ?_, ?_⟩ <;>
    (rw [hcand]; try (first | rfl | exact hid))

/-- Witness for C7 on a concrete client, store and task. -/
theorem delete_then_undo_restores_witness :
    statusEnum.contains sampleTask.status = true ∧
    (∃ t', (deleteThenUndo sampleClient sampleStore sampleTask.id).1.todos.head? = some t' ∧
      t'.title = sampleTask.title ∧ t'.status = sampleTask.status ∧
      t'.priority = sampleTask.priority ∧ t'.category = sampleTask.category ∧
      t'.dueDate = sampleTask.dueDate ∧ t'.id ≠ sampleTask.id) :=
  ⟨by decide,
   delete_then_undo_restores sampleClient sampleStore sampleTask 0 (by decide) (by decide)
     (by decide) (by decide) (by decide) (by decide) (by decide) (by decide)⟩

/-- Claim C10: undo with an empty slot is a no-op on both the cache and the
store (no create request reaches the server), and a successful undo clears
the slot, so a second consecutive undo is again a no-op. -/
theorem undo_empty_slot_noop (cs : ClientState) (s : Store) :
    (cs.deletedTodo = none → handleUndoApply cs s = (cs, s)) ∧
    (∀ d, cs.deletedTodo = some d → (postTodos s (undoBody d)).1.status = 201 →
      (handleUndoApply cs s).1.deletedTodo = none ∧
      handleUndoApply (handleUndoApply cs s).1 (handleUndoApply cs s).2 =
        ((handleUndoApply cs s).1, (handleUndoApply cs s).2)) := by
  constructor
  · intro h
    simp [handleUndoApply, h]
  · intro d hd h201
    obtain ⟨tt, htask⟩ : ∃ tt, (postTodos s (undoBody d)).1.task = some tt := by
      by_cases htm : titleMissing (undoBody d) = true
      · simp [postTodos, htm] at h201
      · replace htm : titleMissing (undoBody d) = false := by simpa using htm
        by_cases hsv : saveValid (candidateTodo s (undoBody d)) = true
        · exact ⟨candidateTodo s (undoBody d), by simp [postTodos, htm, hsv]⟩
        · replace hsv : saveValid (candidateTodo s (undoBody d)) = false := by simpa using hsv
          simp [postTodos, htm, hsv] at h201
    have hres : handleUndoApply cs s =
        ({ todos := tt :: cs.todos, deletedTodo := none }, (postTodos s (undoBody d)).2) := by
      simp [handleUndoApply, hd, h201, htask]
    rw [hres]
    exact ⟨rfl, by simp [handleUndoApply]⟩

/-- Witness for C10: empty-slot undo is a no-op, and a successful undo on a
full slot clears it. -/
theorem undo_empty_slot_noop_witness :
    handleUndoApply sampleClient sampleStore = (sampleClient, sampleStore) ∧
    (handleUndoApply sampleClientDeleted sampleStore).1.deletedTodo = none :=
  ⟨(undo_empty_slot_noop sampleClient sampleStore).1 rfl,
   ((undo_empty_slot_noop sampleClientDeleted sampleStore).2 sampleTask rfl (by decide)).1⟩

end TodoApp
